import Mathlib

/-!
Verification of the SomniaStream poll→dedup→publish→fan-out core
(`main.go`) against its specification.

The Go source is shallowly embedded: every upstream read (RPC call) and
every broker publish is an explicit parameter or return value, `uint64`
arithmetic is `Nat` arithmetic taken modulo `2^64` where the source uses
`uint64`, and fallible operations return `Option`.
-/

namespace SomniaStream

/-- Modulus of Go's `uint64` type. -/
def U64 : Nat := 18446744073709551616

/-- Outcome of one tick of the Blocks poll job (`publishLatestBlock`):
either one of its early returns, or a message published to a subject,
carrying the block height. -/
inductive TickOutcome where
  | headReadFailed : TickOutcome
  | skipped : TickOutcome
  | refetchFailed : TickOutcome
  | publishFailed : TickOutcome
  | published : String → Nat → TickOutcome
  deriving DecidableEq, Repr

/-- Embedding of `publishLatestBlock` (main.go:295-359).  The job state is
`lastBlockNumber`; `headRead` is the result of the first
`ethClient.BlockByNumber` call (its block number, `none` on error);
`refetchOk` is whether the second `BlockByNumber` call succeeds and
`publishOk` whether `js.Publish` succeeds.  As in the source, the stored
number is overwritten with the current height (line 310) *before* the
refetch and the publish are attempted, and the publish targets the
subject `"eth.blocks.full"` (line 351). -/
def publishLatestBlock (lastBlockNumber : Nat) (headRead : Option Nat)
    (refetchOk : Bool) (publishOk : Bool) : Nat × TickOutcome :=
  match headRead with
  | none => (lastBlockNumber, TickOutcome.headReadFailed)
  | some currentBlockNumber =>
    if currentBlockNumber ≤ lastBlockNumber then
      (lastBlockNumber, TickOutcome.skipped)
    else
      if refetchOk then
        if publishOk then
          (currentBlockNumber, TickOutcome.published "eth.blocks.full" currentBlockNumber)
        else
          (currentBlockNumber, TickOutcome.publishFailed)
      else
        (currentBlockNumber, TickOutcome.refetchFailed)

/-- The height a tick outcome published, if any. -/
def publishedHeight : TickOutcome → Option Nat
  | TickOutcome.published _ n => some n
  | _ => none

/-- Run the Blocks job over a sequence of head-height readings with all
reads and publishes succeeding; returns the final stored number and the
list of published heights in order. -/
def blocksRun (lastBlockNumber : Nat) : List Nat → Nat × List Nat
  | [] => (lastBlockNumber, [])
  | h :: hs =>
    let step := publishLatestBlock lastBlockNumber (some h) true true
    let rest := blocksRun step.1 hs
    match step.2 with
    | TickOutcome.published _ n => (rest.1, n :: rest.2)
    | _ => rest

lemma publishLatestBlock_pub (last h : Nat) (hlt : last < h) :
    publishLatestBlock last (some h) true true
      = (h, TickOutcome.published "eth.blocks.full" h) := by
  simp [publishLatestBlock, Nat.not_le.mpr hlt]

lemma publishLatestBlock_skip (last h : Nat) (hle : h ≤ last) :
    publishLatestBlock last (some h) true true = (last, TickOutcome.skipped) := by
  simp [publishLatestBlock, hle]

lemma blocksRun_cons_pub (last h : Nat) (hs : List Nat) (hlt : last < h) :
    blocksRun last (h :: hs) = ((blocksRun h hs).1, h :: (blocksRun h hs).2) := by
  simp [blocksRun, publishLatestBlock_pub last h hlt]

lemma blocksRun_cons_skip (last h : Nat) (hs : List Nat) (hle : h ≤ last) :
    blocksRun last (h :: hs) = blocksRun last hs := by
  simp [blocksRun, publishLatestBlock_skip last h hle]

lemma blocksRun_chain (hs : List Nat) :
    ∀ last, List.Chain' (· < ·) (last :: (blocksRun last hs).2) := by
  induction hs with
  | nil => intro last; simp [blocksRun]
  | cons h hs ih =>
    intro last
    by_cases hlt : last < h
    · rw [blocksRun_cons_pub last h hs hlt]
      exact List.chain'_cons.mpr ⟨hlt, ih h⟩
    · rw [blocksRun_cons_skip last h hs (Nat.le_of_not_lt hlt)]
      exact ih last

lemma blocksRun_nodup (last : Nat) (hs : List Nat) : (blocksRun last hs).2.Nodup := by
  have hchain := (blocksRun_chain hs last).tail
  have hpair : (blocksRun last hs).2.Pairwise (· < ·) :=
    List.chain'_iff_pairwise.mp hchain
  exact hpair.imp Nat.ne_of_lt

/-- C1: on each Blocks tick a height is published iff the head height read
is strictly greater than the stored last-published height; over any
sequence of readings the published heights are strictly increasing, hence
no height is ever published twice; and reading height 100 on two
consecutive ticks publishes exactly one message. -/
theorem blocks_dedup_publish_iff (last h : Nat) (hs : List Nat) :
    publishedHeight (publishLatestBlock last (some h) true true).2
        = (if last < h then some h else none)
    ∧ List.Chain' (· < ·) (last :: (blocksRun last hs).2)
    ∧ (blocksRun last hs).2.Nodup
    ∧ (blocksRun 0 [100, 100]).2 = [100] := by
  refine ⟨?_, blocksRun_chain hs last, blocksRun_nodup last hs, by decide⟩
  by_cases hlt : last < h
  · rw [if_pos hlt, publishLatestBlock_pub last h hlt]
    rfl
  · rw [if_neg hlt, publishLatestBlock_skip last h (Nat.le_of_not_lt hlt)]
    rfl

/-- C2 counterexample: with stored number 5, head read returning 10 and
the refetch failing, the tick fails after the head height was observed
yet the stored last-published block number has changed from 5 to 10
(main.go line 310 runs before lines 315 and 351). -/
theorem blocks_cursor_changed_on_midcycle_failure :
    (publishLatestBlock 5 (some 10) false true).1 = 10
    ∧ (publishLatestBlock 5 (some 10) false true).1 ≠ 5 := by decide

/-- C2 amended: if the head read itself fails, or the height read is not
greater than the stored number, the stored number is unchanged; but
whenever a strictly greater height h is observed, the stored number is
set to h before the refetch and the publish are attempted, so a failure
after the head was observed leaves the cursor advanced to h (the missed
block is not retried on the next tick). -/
theorem blocks_cursor_update_characterization (last h : Nat) (r p : Bool) :
    (publishLatestBlock last none r p).1 = last
    ∧ (publishLatestBlock last (some h) r p).1 = (if last < h then h else last) := by
  refine ⟨rfl, ?_⟩
  by_cases hlt : last < h
  · rw [if_pos hlt]
    cases r <;> cases p <;> simp [publishLatestBlock, Nat.not_le.mpr hlt]
  · rw [if_neg hlt]
    cases r <;> cases p <;> simp [publishLatestBlock, Nat.le_of_not_lt hlt]

/-- Embedding of the fromBlock computation of `publishRecentLogs`
(main.go:408-411).  `head` is the latest block number, a `uint64`, so the
source expression `latestBlock.Number().Uint64() - 5` wraps modulo 2^64;
the subsequent `if fromBlock < 0 { fromBlock = 0 }` is kept literally
(on `Nat`, as on Go's `uint64`, the condition is never true). -/
def logsFromBlock (head : Nat) : Nat :=
  let fromBlock := (head + U64 - 5) % U64
  if fromBlock < 0 then 0 else fromBlock

/-- C3: at head height 3 the code computes fromBlock = 2^64 - 2 (uint64
underflow), not the clamped value 0 claimed by the spec; for head ≥ 5
(e.g. 100) it computes head - 5 as specified. -/
theorem logsFromBlock_underflow :
    logsFromBlock 3 = 18446744073709551614
    ∧ logsFromBlock 3 ≠ 0
    ∧ logsFromBlock 100 = 95 := by decide

/-- Embedding of `getStreamSubject` (main.go:561-578).  The source switch
has the two-pattern case `"gasPrice", "gas"`, rendered as two branches. -/
def getStreamSubject (stream : String) : String :=
  if stream = "blocks" then "eth.blocks.full"
  else if stream = "pending" then "eth.pending"
  else if stream = "logs" then "eth.logs"
  else if stream = "network" then "eth.network"
  else if stream = "gasPrice" then "eth.gasPrice"
  else if stream = "gas" then "eth.gasPrice"
  else if stream = "blocks-simple" then "eth.blocks"
  else "eth.blocks.full"

/-- C4 counterexample: the name "gas" is not one of the six names the
claim lists for the lookup table, yet it resolves to "eth.gasPrice"
rather than to the default fallback "eth.blocks.full". -/
theorem getStreamSubject_gas_not_fallback :
    getStreamSubject "gas" = "eth.gasPrice"
    ∧ getStreamSubject "gas" ≠ "eth.blocks.full"
    ∧ "gas" ∉ (["blocks", "pending", "logs", "network", "gasPrice", "blocks-simple"] :
        List String) := by decide

/-- C4 amended: the lookup table maps blocks, pending, logs, network,
gasPrice, blocks-simple as claimed and additionally the alias gas to
eth.gasPrice; every name outside these seven resolves to the default
fallback eth.blocks.full rather than being rejected. -/
theorem getStreamSubject_table (s : String)
    (hs : s ∉ (["blocks", "pending", "logs", "network", "gasPrice", "gas",
        "blocks-simple"] : List String)) :
    getStreamSubject "blocks" = "eth.blocks.full"
    ∧ getStreamSubject "pending" = "eth.pending"
    ∧ getStreamSubject "logs" = "eth.logs"
    ∧ getStreamSubject "network" = "eth.network"
    ∧ getStreamSubject "gasPrice" = "eth.gasPrice"
    ∧ getStreamSubject "gas" = "eth.gasPrice"
    ∧ getStreamSubject "blocks-simple" = "eth.blocks"
    ∧ getStreamSubject s = "eth.blocks.full" := by
  simp only [List.mem_cons, List.not_mem_nil, or_false, not_or] at hs
  obtain ⟨h1, h2, h3, h4, h5, h6, h7⟩ := hs
  refine ⟨by decide, by decide, by decide, by decide, by decide, by decide, by decide, ?_⟩
  simp [getStreamSubject, h1, h2, h3, h4, h5, h6, h7]

/-- Witness for the amended C4 theorem at the unrecognized name "bogus". -/
theorem getStreamSubject_table_witness :
    "bogus" ∉ (["blocks", "pending", "logs", "network", "gasPrice", "gas",
        "blocks-simple"] : List String)
    ∧ getStreamSubject "bogus" = "eth.blocks.full" :=
  ⟨by decide, (getStreamSubject_table "bogus" (by decide)).2.2.2.2.2.2.2⟩

/-- Modelled from the spec: the Durable Multi-Subject Log (an external
collaborator; §6 "Durable Log contract").  One subject's log is the list
of message payloads in publish order. -/
structure DurableLog where
  msgs : List String
  deriving Repr, DecidableEq

/-- Modelled from the spec: `publish(subject, payload)` appends to the
subject's log. -/
def publishToLog (log : DurableLog) (m : String) : DurableLog :=
  { msgs := log.msgs ++ [m] }

/-- Publish a sequence of payloads in order. -/
def publishAll (log : DurableLog) (ms : List String) : DurableLog :=
  ms.foldl publishToLog log

/-- A subscription: the resolved subject and the position in the subject's
log at which delivery starts. -/
structure Subscription where
  subject : String
  startPos : Nat
  deriving Repr, DecidableEq

/-- Embedding of `handleSSEStream` (main.go:517-535): the requested
logical stream name is resolved via `getStreamSubject` and the
subscription is opened with `nats.DeliverNew()`, i.e. positioned at the
current end of the subject's log (modelled from the spec's
`subscribeNew`: deliver only messages appended after subscribe time). -/
def handleSSEStream (stream : String) (logAtConnect : DurableLog) : Subscription :=
  { subject := getStreamSubject stream, startPos := logAtConnect.msgs.length }

/-- Modelled from the spec: what a DeliverNew subscription has delivered
once the subject's log has grown to `log` — the messages after its start
position, in publish order. -/
def delivered (sub : Subscription) (log : DurableLog) : List String :=
  log.msgs.drop sub.startPos

lemma publishAll_msgs (ms : List String) :
    ∀ log : DurableLog, (publishAll log ms).msgs = log.msgs ++ ms := by
  induction ms with
  | nil => intro log; simp [publishAll]
  | cons m ms ih =>
    intro log
    simp [publishAll, List.foldl_cons] at ih ⊢
    rw [ih (publishToLog log m)]
    simp [publishToLog]

/-- C5: a subscription created by `handleSSEStream` observes exactly the
messages published to its resolved subject after it was created, in
publish order — none of the messages already in the log at connect
time. -/
theorem sse_subscription_new_only (stream : String) (logAtConnect : DurableLog)
    (later : List String) :
    delivered (handleSSEStream stream logAtConnect) (publishAll logAtConnect later)
      = later := by
  simp [delivered, handleSSEStream, publishAll_msgs, List.drop_left]

/-- Payload published by the PendingTransactions job. -/
structure PendingPayload where
  count : Nat
  transactions : List String
  deriving Repr, DecidableEq

/-- Embedding of `publishPendingTransactions` (main.go:362-397).
`pendingTxs` is the result of the `eth_pendingTransactions` RPC call
(transactions kept opaque); the source publishes only when the pool is
non-empty, with `count` the full pool size and the list truncated by
`pendingTxs[:min(len(pendingTxs), 50)]`. -/
def publishPendingTransactions (pendingTxs : List String) : Option PendingPayload :=
  if pendingTxs.length > 0 then
    some { count := pendingTxs.length,
           transactions := pendingTxs.take (min pendingTxs.length 50) }
  else
    none

/-- C6: an empty pending pool publishes nothing; a pool of N > 0
transactions publishes exactly one message with count = N and the
transaction list equal to the first min(N, 50) entries of the pool. -/
theorem pending_publish_spec (txs : List String) (hne : txs ≠ []) :
    publishPendingTransactions ([] : List String) = none
    ∧ ∃ p, publishPendingTransactions txs = some p
      ∧ p.count = txs.length
      ∧ p.transactions = txs.take (min txs.length 50)
      ∧ p.transactions.length = min txs.length 50 := by
  have hlen : txs.length > 0 := List.length_pos.mpr hne
  refine ⟨rfl, ⟨⟨txs.length, txs.take (min txs.length 50)⟩, ?_, rfl, rfl, ?_⟩⟩
  · simp [publishPendingTransactions, hlen]
  · simp [List.length_take]

/-- Witness for C6 at a two-transaction pool. -/
theorem pending_publish_spec_witness :
    (["t1", "t2"] : List String) ≠ []
    ∧ (publishPendingTransactions ([] : List String) = none
      ∧ ∃ p, publishPendingTransactions ["t1", "t2"] = some p
        ∧ p.count = (["t1", "t2"] : List String).length
        ∧ p.transactions = (["t1", "t2"] : List String).take
            (min (["t1", "t2"] : List String).length 50)
        ∧ p.transactions.length = min (["t1", "t2"] : List String).length 50) :=
  ⟨by decide, pending_publish_spec ["t1", "t2"] (by decide)⟩

/-- Payload published by the Logs job. -/
structure LogsPayload where
  count : Nat
  logs : List String
  fromBlock : Nat
  toBlock : Nat
  deriving Repr, DecidableEq

/-- Embedding of `publishRecentLogs` (main.go:400-435).  `head` is the
block number of the latest block read at the start of the cycle and
`matched` the result of the `eth_getLogs` call (log records kept
opaque); the source publishes only when logs matched, with `count` the
full match count, the list truncated by `logs[:min(len(logs), 100)]`,
`fromBlock` the (underflowing) computation above, and `toBlock` the head
number read at the start of the cycle. -/
def publishRecentLogs (head : Nat) (matched : List String) : Option LogsPayload :=
  if matched.length > 0 then
    some { count := matched.length,
           logs := matched.take (min matched.length 100),
           fromBlock := logsFromBlock head,
           toBlock := head }
  else
    none

/-- C7: a cycle with no matching logs publishes nothing; a cycle with
M > 0 matches publishes exactly one message with count = M, logs the
first min(M, 100) matches (so never more than 100), and toBlock equal to
the head height read at the start of the cycle. -/
theorem logs_publish_spec (head : Nat) (matched : List String) (hne : matched ≠ []) :
    publishRecentLogs head ([] : List String) = none
    ∧ ∃ p, publishRecentLogs head matched = some p
      ∧ p.count = matched.length
      ∧ p.logs = matched.take (min matched.length 100)
      ∧ p.logs.length = min matched.length 100
      ∧ p.logs.length ≤ 100
      ∧ p.toBlock = head := by
  have hlen : matched.length > 0 := List.length_pos.mpr hne
  refine ⟨rfl, ⟨⟨matched.length, matched.take (min matched.length 100),
      logsFromBlock head, head⟩, ?_, rfl, rfl, ?_, ?_, rfl⟩⟩
  · simp [publishRecentLogs, hlen]
  · simp [List.length_take]
  · simp [List.length_take]

/-- Witness for C7 at head 10 with one matching log. -/
theorem logs_publish_spec_witness :
    (["l1"] : List String) ≠ []
    ∧ (publishRecentLogs 10 ([] : List String) = none
      ∧ ∃ p, publishRecentLogs 10 ["l1"] = some p
        ∧ p.count = (["l1"] : List String).length
        ∧ p.logs = (["l1"] : List String).take (min (["l1"] : List String).length 100)
        ∧ p.logs.length = min (["l1"] : List String).length 100
        ∧ p.logs.length ≤ 100
        ∧ p.toBlock = 10) :=
  ⟨by decide, logs_publish_spec 10 ["l1"] (by decide)⟩

/-- Payload published by the GasPrice job.  The source computes `gwei` as
`float64(gasPrice.Uint64()) / 1e9`; `Uint64` on a `big.Int` is modelled
as reduction modulo 2^64 (it is only defined for values below 2^64), and
the `float64` division is modelled as exact rational division. -/
structure GasPayload where
  gasPrice : Nat
  gwei : ℚ
  deriving Repr, DecidableEq

/-- Embedding of `publishGasPrice` (main.go:465-480).  `readResult` is
the result of `SuggestGasPrice` (`none` on error, aborting the tick);
on success exactly one message is published. -/
def publishGasPrice (readResult : Option Nat) : Option GasPayload :=
  match readResult with
  | none => none
  | some gasPrice =>
    some { gasPrice := gasPrice, gwei := ((gasPrice % U64 : Nat) : ℚ) / 1000000000 }

/-- C8: whenever the suggested-gas-price read succeeds with raw value g,
exactly one message is published carrying the raw value and a derived
unit equal to g divided by 10^9; in particular raw value 20000000000
yields derived value 20. -/
theorem gasPrice_publish_spec (g : Nat) (hg : g < U64) :
    publishGasPrice none = none
    ∧ (∃ p, publishGasPrice (some g) = some p
        ∧ p.gasPrice = g
        ∧ p.gwei = (g : ℚ) / 1000000000)
    ∧ publishGasPrice (some 20000000000)
        = some { gasPrice := 20000000000, gwei := 20 } := by
  refine ⟨rfl, ⟨⟨g, ((g % U64 : Nat) : ℚ) / 1000000000⟩, rfl, rfl, ?_⟩, ?_⟩
  · show ((g % U64 : Nat) : ℚ) / 1000000000 = (g : ℚ) / 1000000000
    rw [Nat.mod_eq_of_lt hg]
  · norm_num [publishGasPrice, U64]

/-- Witness for C8 at the raw value 20000000000 named by the spec. -/
theorem gasPrice_publish_spec_witness :
    20000000000 < U64
    ∧ (publishGasPrice none = none
      ∧ (∃ p, publishGasPrice (some 20000000000) = some p
          ∧ p.gasPrice = 20000000000
          ∧ p.gwei = ((20000000000 : Nat) : ℚ) / 1000000000)
      ∧ publishGasPrice (some 20000000000)
          = some { gasPrice := 20000000000, gwei := 20 }) :=
  ⟨by norm_num [U64], gasPrice_publish_spec 20000000000 (by norm_num [U64])⟩

/-- Payload published by the NetworkStats job.  The source declares
`var chainId, blockNumber, gasPrice, peerCount string` (zero value `""`)
and `var syncing interface\x7b\x7d` (zero value nil). -/
structure NetworkStats where
  chainId : String
  blockNumber : String
  gasPrice : String
  peerCount : String
  syncing : Option String
  deriving Repr, DecidableEq

/-- Embedding of `publishNetworkStats` (main.go:438-462).  Each of the
five RPC reads is independent and its error is discarded, so a failed
read leaves the corresponding variable at its zero value; the message is
built and published unconditionally. -/
def publishNetworkStats (chainIdRead blockNumberRead gasPriceRead peerCountRead
    syncingRead : Option String) : Option NetworkStats :=
  some { chainId := chainIdRead.getD "",
         blockNumber := blockNumberRead.getD "",
         gasPrice := gasPriceRead.getD "",
         peerCount := peerCountRead.getD "",
         syncing := syncingRead }

/-- C9: a NetworkStats cycle always publishes exactly one message; each
field depends only on its own read and a failed read leaves only that
field at its absent/zero value, never aborting the cycle (in particular
all five reads failing still publishes the all-zero message). -/
theorem networkStats_best_effort (c b g p s : Option String) :
    (∃ st, publishNetworkStats c b g p s = some st
      ∧ st.chainId = c.getD ""
      ∧ st.blockNumber = b.getD ""
      ∧ st.gasPrice = g.getD ""
      ∧ st.peerCount = p.getD ""
      ∧ st.syncing = s)
    ∧ publishNetworkStats none none none none none
        = some { chainId := "", blockNumber := "", gasPrice := "",
                 peerCount := "", syncing := none } :=
  ⟨⟨{ chainId := c.getD "", blockNumber := b.getD "", gasPrice := g.getD "",
      peerCount := p.getD "", syncing := s }, rfl, rfl, rfl, rfl, rfl, rfl⟩, rfl⟩

/-- C10 counterexample: no execution of the Blocks poll job ever
publishes a message to the subject "eth.blocks" — every message the job
publishes goes to "eth.blocks.full" (main.go line 351 is the only
publish in `publishLatestBlock`). -/
theorem blocks_job_never_publishes_simple_subject :
    ¬ ∃ (last : Nat) (headRead : Option Nat) (r p : Bool) (h : Nat),
        (publishLatestBlock last headRead r p).2
          = TickOutcome.published "eth.blocks" h := by
  rintro ⟨last, headRead, r, p, h, heq⟩
  cases headRead with
  | none => simp [publishLatestBlock] at heq
  | some cur =>
    by_cases hle : cur ≤ last
    · simp [publishLatestBlock, hle] at heq
    · cases r <;> cases p <;> simp [publishLatestBlock, hle] at heq

/-- Configuration of the JetStream streams created by `setupJetStreams`
(main.go:119-171): stream name, subjects, max age in hours, max message
count. -/
structure StreamConfig where
  name : String
  subjects : List String
  maxAgeHours : Nat
  maxMsgs : Nat
  deriving Repr, DecidableEq

/-- Embedding of the stream table of `setupJetStreams` (main.go:122-142)
with the retention limits of main.go:150-151. -/
def jetStreamConfigs : List StreamConfig :=
  [ { name := "ETH_BLOCKS", subjects := ["eth.blocks.full", "eth.blocks"],
      maxAgeHours := 24, maxMsgs := 10000 },
    { name := "ETH_TRANSACTIONS", subjects := ["eth.pending"],
      maxAgeHours := 24, maxMsgs := 10000 },
    { name := "ETH_LOGS", subjects := ["eth.logs"],
      maxAgeHours := 24, maxMsgs := 10000 },
    { name := "ETH_NETWORK", subjects := ["eth.network", "eth.gasPrice"],
      maxAgeHours := 24, maxMsgs := 10000 } ]

/-- C10 amended: the alternate subject "eth.blocks" is declared in the
ETH_BLOCKS stream configuration alongside "eth.blocks.full" and the
logical name blocks-simple resolves to it, but the Blocks poll job never
publishes to it: every message the job publishes goes to
"eth.blocks.full". -/
theorem blocks_simple_subject_configured_but_unpublished (last : Nat)
    (headRead : Option Nat) (r p : Bool) (subj : String) (h : Nat)
    (hpub : (publishLatestBlock last headRead r p).2 = TickOutcome.published subj h) :
    getStreamSubject "blocks-simple" = "eth.blocks"
    ∧ (∃ cfg ∈ jetStreamConfigs, cfg.name = "ETH_BLOCKS"
        ∧ "eth.blocks.full" ∈ cfg.subjects ∧ "eth.blocks" ∈ cfg.subjects)
    ∧ subj = "eth.blocks.full" := by
  refine ⟨by decide, ?_, ?_⟩
  · exact ⟨⟨"ETH_BLOCKS", ["eth.blocks.full", "eth.blocks"], 24, 10000⟩,
      by decide, by decide, by decide, by decide⟩
  · cases headRead with
    | none => simp [publishLatestBlock] at hpub
    | some cur =>
      by_cases hle : cur ≤ last
      · simp [publishLatestBlock, hle] at hpub
      · cases r <;> cases p <;> simp [publishLatestBlock, hle] at hpub
        exact hpub.1.symm

/-- Witness for the amended C10 theorem at a successful publish from
stored number 0 and head height 1. -/
theorem blocks_simple_subject_configured_but_unpublished_witness :
    (publishLatestBlock 0 (some 1) true true).2
        = TickOutcome.published "eth.blocks.full" 1
    ∧ (getStreamSubject "blocks-simple" = "eth.blocks"
      ∧ (∃ cfg ∈ jetStreamConfigs, cfg.name = "ETH_BLOCKS"
          ∧ "eth.blocks.full" ∈ cfg.subjects ∧ "eth.blocks" ∈ cfg.subjects)
      ∧ "eth.blocks.full" = "eth.blocks.full") :=
  ⟨by decide, blocks_simple_subject_configured_but_unpublished 0 (some 1) true true
      "eth.blocks.full" 1 (by decide)⟩

end SomniaStream
